import Mathlib

/-! A verification model of the core PBFT consensus node.  The data model and
the event handlers are translated from the node implementation
(`src/node.rs`).  The companion modules (node state, message log, message
types, errors, configuration) are not among the given sources; each definition
standing in for one of them is marked `Modelled from the spec:` and follows
the words of the specification.  Host service calls are recorded as an effect
trace; a broadcast is recorded without self-delivery, matching the
test configuration of the implementation of `_broadcast_message`. -/

/-- Byte strings: block ids, peer ids, signer ids. -/
abbrev Bytes := List Nat

/-- 64-bit wrap-around addition (`u64` arithmetic in the source). -/
def u64add (a b : Nat) : Nat := (a + b) % (2 ^ 64)

/-- Host-supplied consensus block. -/
structure Block where
  block_id : Bytes
  previous_id : Bytes
  signer_id : Bytes
  block_num : Nat
  payload : Bytes
  summary : Bytes
deriving DecidableEq

/-- Trimmed block projection carried inside consensus messages. -/
structure PbftBlock where
  block_id : Bytes
  signer_id : Bytes
  block_num : Nat
  summary : Bytes
deriving DecidableEq

/-- The default `PbftBlock` (all fields defaulted, as `PbftBlock::new()`). -/
def PbftBlock.empty : PbftBlock := ⟨[], [], 0, []⟩

/-- `pbft_block_from_block`: drop `payload` and `previous_id`. -/
def pbft_block_from_block (b : Block) : PbftBlock :=
  ⟨b.block_id, b.signer_id, b.block_num, b.summary⟩

/-- Modelled from the spec: the message-type module is not among the given
sources; types are `BlockNew, PrePrepare, Prepare, Commit, Checkpoint,
ViewChange, Unset` (§4.4). -/
inductive PbftMessageType
  | Unset
  | BlockNew
  | PrePrepare
  | Prepare
  | Commit
  | Checkpoint
  | ViewChange
deriving DecidableEq

/-- Modelled from the spec: the ordinal giving the total order
`BlockNew < PrePrepare < Prepare < Commit` used by `_handle_multicast`
(§4.4); `Unset` is the least ordinal. -/
def PbftMessageType.ordinal : PbftMessageType → Nat
  | .Unset => 0
  | .BlockNew => 1
  | .PrePrepare => 2
  | .Prepare => 3
  | .Commit => 4
  | .Checkpoint => 5
  | .ViewChange => 6

/-- Modelled from the spec: `is_multicast()` holds for `PrePrepare`,
`Prepare`, `Commit` (§4.4). -/
def PbftMessageType.is_multicast : PbftMessageType → Bool
  | .PrePrepare => true
  | .Prepare => true
  | .Commit => true
  | _ => false

structure PbftMessageInfo where
  msg_type : PbftMessageType
  view : Nat
  seq_num : Nat
  signer_id : Bytes
deriving DecidableEq

structure PbftMessage where
  info : PbftMessageInfo
  block : PbftBlock
deriving DecidableEq

structure PbftViewChange where
  info : PbftMessageInfo
  checkpoint_messages : List PbftMessage
deriving DecidableEq

/-- Parsed peer-message content.  The protobuf codec is out of scope
(§1); `malformed` stands for bytes that fail to decode as the requested
shape. -/
inductive PeerContent
  | pbft (m : PbftMessage)
  | vc (m : PbftViewChange)
  | malformed
deriving DecidableEq

structure PeerMessage where
  message_type : PbftMessageType
  content : PeerContent
deriving DecidableEq

/-- Modelled from the spec: the error taxonomy (§7); the error module is not
among the given sources. -/
inductive PbftError
  | SerializationError
  | NotReadyForMessage
  | MessageExists (t : PbftMessageType)
  | WrongNumMessages (t : PbftMessageType) (expected actual : Nat)
  | BlockMismatch (a b : PbftBlock)
  | ViewMismatch (got expected : Nat)
  | NoWorkingBlock
  | WrongNumBlocks
  | Timeout
  | InternalError (reason : String)
deriving DecidableEq

/-- A `Result<(), PbftError>` value. -/
inductive PbftResult
  | ok
  | err (e : PbftError)
deriving DecidableEq

def PbftResult.isOk : PbftResult → Bool
  | .ok => true
  | .err _ => false

/-- Modelled from the spec: not-ready verdicts for multicast messages
(§4.1.1). -/
inductive PbftNotReadyType
  | PushToBacklog
  | AddToLog
  | Proceed
deriving DecidableEq

inductive PbftPhase
  | NotStarted
  | PrePreparing
  | Preparing
  | Checking
  | Committing
  | Finished
deriving DecidableEq

inductive PbftMode
  | Normal
  | ViewChanging
  | Checkpointing
deriving DecidableEq

inductive PbftNodeRole
  | Primary
  | Secondary
deriving DecidableEq

inductive WorkingBlockOption
  | NoWorkingBlock
  | TentativeWorkingBlock (block_id : Bytes)
  | WorkingBlock (block : PbftBlock)
deriving DecidableEq

/-- Modelled from the spec: the `working_block == None` test used by the
not-ready table (§4.1.1). -/
def WorkingBlockOption.is_none : WorkingBlockOption → Bool
  | .NoWorkingBlock => true
  | _ => false

/-- The view-change timer; `start`/`stop` are tracked as a running flag
(`is_expired` is wall-clock time and is not modelled). -/
structure TimeoutState where
  running : Bool
deriving DecidableEq

/-- Modelled from the spec: the node-local state block (§4.2); the state
module is not among the given sources. -/
structure PbftState where
  id : Nat
  peer_id : Bytes
  peers : List Bytes
  view : Nat
  seq_num : Nat
  f : Nat
  phase : PbftPhase
  mode : PbftMode
  pre_checkpoint_mode : PbftMode
  role : PbftNodeRole
  working_block : WorkingBlockOption
  timeout : TimeoutState
deriving DecidableEq

/-- Modelled from the spec: role test (§4.2). -/
def PbftState.is_primary (s : PbftState) : Bool :=
  match s.role with
  | .Primary => true
  | .Secondary => false

/-- Modelled from the spec: the peer id of this node (§4.2). -/
def PbftState.get_own_peer_id (s : PbftState) : Bytes := s.peer_id

/-- Modelled from the spec: the primary for view `v` is `roster[v mod N]`
(§3). -/
def PbftState.get_primary_peer_id (s : PbftState) : Bytes :=
  s.peers.getD (s.view % s.peers.length) []

/-- Modelled from the spec: upgrade to primary on view change (§4.1.5). -/
def PbftState.upgrade_role (s : PbftState) : PbftState := { s with role := .Primary }

/-- Modelled from the spec: downgrade to secondary on view change (§4.1.5). -/
def PbftState.downgrade_role (s : PbftState) : PbftState := { s with role := .Secondary }

/-- Modelled from the spec: the message type currently expected, derived from
the phase: `PrePreparing → PrePrepare`, `Preparing → Prepare`,
`Checking → Prepare`, `Committing → Commit` (§4.1.1); the remaining phases
expect `Unset`. -/
def PbftState.check_msg_type (s : PbftState) : PbftMessageType :=
  match s.phase with
  | .PrePreparing => .PrePrepare
  | .Preparing => .Prepare
  | .Checking => .Prepare
  | .Committing => .Commit
  | _ => .Unset

/-- Successor in the ordered phase progression
`NotStarted < PrePreparing < Preparing < Checking < Committing < Finished`
(§3 invariants). -/
def PbftPhase.next : PbftPhase → PbftPhase
  | .NotStarted => .PrePreparing
  | .PrePreparing => .Preparing
  | .Preparing => .Checking
  | .Checking => .Committing
  | .Committing => .Finished
  | .Finished => .NotStarted

/-- Modelled from the spec: `switch_phase(target)` succeeds iff `target` is
the next phase in the progression or `target == NotStarted`; failure is a
no-op yielding the sentinel `none` (§4.2). -/
def PbftState.switch_phase (s : PbftState) (target : PbftPhase) :
    PbftState × Option PbftPhase :=
  if target = s.phase.next ∨ target = .NotStarted then
    ({ s with phase := target }, some target)
  else
    (s, none)

structure PbftStableCheckpoint where
  seq_num : Nat
  checkpoint_messages : List PbftMessage
deriving DecidableEq

/-- Modelled from the spec: the collections of the message log (§4.3); the
message-log module is not among the given sources. -/
structure PbftLog where
  messages : List PbftMessage
  view_changes : List PbftViewChange
  backlog : List PeerMessage
  block_backlog : List Block
  latest_stable_checkpoint : Option PbftStableCheckpoint
deriving DecidableEq

def PbftLog.emptyLog : PbftLog := ⟨[], [], [], [], none⟩

/-- The implicit key of a logged message (§4.3). -/
def msgKey (m : PbftMessage) : PbftMessageType × Nat × Nat × Bytes :=
  (m.info.msg_type, m.info.view, m.info.seq_num, m.info.signer_id)

/-- Modelled from the spec: the messages collection is an unordered set keyed
implicitly by `(type, view, seq_num, signer_id)` (§4.3); inserting a message
whose key is already present is a no-op. -/
def PbftLog.add_message (l : PbftLog) (m : PbftMessage) : PbftLog :=
  if l.messages.any fun x => msgKey x == msgKey m then l
  else { l with messages := l.messages ++ [m] }

/-- Modelled from the spec: view-change messages are stored separately
(§4.3); a duplicate insert is a no-op. -/
def PbftLog.add_view_change (l : PbftLog) (m : PbftViewChange) : PbftLog :=
  if m ∈ l.view_changes then l
  else { l with view_changes := l.view_changes ++ [m] }

/-- Modelled from the spec: the logged messages of one type at `(seq, view)`
(§4.3, used throughout §4.1). -/
def PbftLog.get_messages_of_type (l : PbftLog) (t : PbftMessageType) (seq view : Nat) :
    List PbftMessage :=
  l.messages.filter fun m =>
    m.info.msg_type == t && m.info.seq_num == seq && m.info.view == view

/-- Modelled from the spec: `fix_seq_nums(type, seq, view, block)` rewrites
all logged messages of `type` whose block matches `block` to carry
`(view, seq)` and returns the number rewritten (§4.3). -/
def PbftLog.fix_seq_nums (l : PbftLog) (t : PbftMessageType) (seq view : Nat)
    (b : PbftBlock) : PbftLog × Nat :=
  let hit := fun (m : PbftMessage) => m.info.msg_type == t && m.block == b
  ({ l with
      messages := l.messages.map fun m =>
        if hit m then { m with info := { m.info with view := view, seq_num := seq } }
        else m },
    (l.messages.filter hit).length)

/-- Modelled from the spec: the sequence number of the latest stable checkpoint,
`0` when none exists (used by the Checkpoint drop test, §4.1). -/
def PbftLog.get_latest_checkpoint (l : PbftLog) : Nat :=
  match l.latest_stable_checkpoint with
  | some cp => cp.seq_num
  | none => 0

/-- Enqueue a raw peer message on the FIFO peer backlog (§4.3). -/
def PbftLog.push_backlog (l : PbftLog) (m : PeerMessage) : PbftLog :=
  { l with backlog := l.backlog ++ [m] }

/-- Enqueue a host block on the FIFO block backlog (§4.3). -/
def PbftLog.push_block_backlog (l : PbftLog) (b : Block) : PbftLog :=
  { l with block_backlog := l.block_backlog ++ [b] }

/-- The number of distinct signers among a list of message infos. -/
def distinctSigners (infos : List PbftMessageInfo) : Nat :=
  ((infos.map fun i => i.signer_id).dedup).length

/-- Modelled from the spec: the generic quorum counter
`check_msg_against_log(m, true, cutoff)` — count the distinct-signer stored
messages matching `m` on `(type, seq_num, view)` and require at least
`cutoff` of them (§4.3). -/
def checkMsgAgainstLog (infos : List PbftMessageInfo) (i : PbftMessageInfo)
    (cutoff : Nat) : PbftResult :=
  let matching := infos.filter fun x =>
    x.msg_type == i.msg_type && x.seq_num == i.seq_num && x.view == i.view
  let cnt := distinctSigners matching
  if cnt < cutoff then .err (.WrongNumMessages i.msg_type cutoff cnt) else .ok

/-- Modelled from the spec: *prepared(m, f)* — exactly one logged `PrePrepare`
at `(m.view, m.seq_num)` referencing the same block, and at least `2f + 1`
distinct-signer `Prepare` messages matching `(view, seq_num, block)` (§4.3). -/
def PbftLog.prepared (l : PbftLog) (m : PbftMessage) (f : Nat) : PbftResult :=
  let pre_preps := (l.get_messages_of_type .PrePrepare m.info.seq_num m.info.view).filter
    fun x => x.block == m.block
  if pre_preps.length ≠ 1 then
    .err (.WrongNumMessages .PrePrepare 1 pre_preps.length)
  else
    let preps := (l.get_messages_of_type .Prepare m.info.seq_num m.info.view).filter
      fun x => x.block == m.block
    let cnt := distinctSigners (preps.map fun x => x.info)
    if cnt < 2 * f + 1 then .err (.WrongNumMessages .Prepare (2 * f + 1) cnt)
    else .ok

/-- Modelled from the spec: *committed(m, f)* — *prepared(m, f)* together with
at least `2f + 1` distinct-signer `Commit` messages matching
`(view, seq_num, block)` (§4.3). -/
def PbftLog.committed (l : PbftLog) (m : PbftMessage) (f : Nat) : PbftResult :=
  match l.prepared m f with
  | .err e => .err e
  | .ok =>
    let commits := (l.get_messages_of_type .Commit m.info.seq_num m.info.view).filter
      fun x => x.block == m.block
    let cnt := distinctSigners (commits.map fun x => x.info)
    if cnt < 2 * f + 1 then .err (.WrongNumMessages .Commit (2 * f + 1) cnt)
    else .ok

/-- Modelled from the spec: garbage collection at a stable checkpoint — drop
every logged message with `seq_num < seq` that is not part of the
stable-checkpoint proof and promote this proof to `latest_stable_checkpoint`
(§4.3). -/
def PbftLog.garbage_collect (l : PbftLog) (seq view : Nat) : PbftLog :=
  let stable_proof := l.get_messages_of_type .Checkpoint seq view
  { l with
    messages := l.messages.filter fun m => seq ≤ m.info.seq_num || stable_proof.contains m,
    latest_stable_checkpoint := some ⟨seq, stable_proof⟩ }

/-- The host service environment for one entry point: the data its read calls
return.  Calls whose failures the source swallows (`unwrap_or_else` with a
log line) always succeed here; the two calls whose failures propagate as
`InternalError` carry a success flag. -/
structure ServiceEnv where
  chain_head : Option Block
  blocks : List (Bytes × Block)
  check_blocks_ok : Bool
  commit_block_ok : Bool
deriving DecidableEq

/-- `get_blocks`: the blocks found for the requested ids. -/
def ServiceEnv.getBlocks (env : ServiceEnv) (ids : List Bytes) : List Block :=
  ids.filterMap fun i => (env.blocks.find? fun p => p.1 == i).map fun p => p.2

/-- `get_block_by_id`: the first block returned for the id, if any. -/
def getBlockById (env : ServiceEnv) (id : Bytes) : Option Block :=
  match env.getBlocks [id] with
  | [] => none
  | b :: _ => some b

/-- The service and network effects recorded while one entry point runs. -/
inductive Effect
  | Broadcast (t : PbftMessageType) (m : PbftMessage)
  | BroadcastVC (t : PbftMessageType) (m : PbftViewChange)
  | CheckBlocks (ids : List Bytes)
  | CommitBlock (id : Bytes)
  | InitBlock (previous : Option Bytes)
  | CancelBlock
  | IgnoreBlock (id : Bytes)
deriving DecidableEq

/-- The node: its state and message log (the service handle is replaced by
the `ServiceEnv` argument and the effect trace). -/
structure PbftNode where
  state : PbftState
  msg_log : PbftLog
deriving DecidableEq

/-- The outcome of one entry point: the node afterwards, the effect trace and
the returned result. -/
structure StepResult where
  node : PbftNode
  effects : List Effect
  result : PbftResult
deriving DecidableEq

/-- `make_msg_info`. -/
def make_msg_info (t : PbftMessageType) (view seq : Nat) (signer : Bytes) :
    PbftMessageInfo :=
  ⟨t, view, seq, signer⟩

/-- `_broadcast_pbft_message`: a multicast message of a type other than the
currently expected one is silently not sent; otherwise the message is built
from `(type, view, seq, own peer id)` and recorded. -/
def broadcastPbftMessage (s : PbftState) (seq : Nat) (t : PbftMessageType)
    (b : PbftBlock) : List Effect :=
  if t.is_multicast ∧ t ≠ s.check_msg_type then []
  else [.Broadcast t ⟨make_msg_info t s.view seq s.get_own_peer_id, b⟩]

/-- `_handle_multicast`: the not-ready verdict, translated branch for branch
from the source. -/
def handleMulticast (s : PbftState) (m : PbftMessage) : PbftNotReadyType :=
  if m.info.seq_num > s.seq_num then
    .PushToBacklog
  else if m.info.seq_num = s.seq_num then
    if s.working_block.is_none then
      .AddToLog
    else
      if m.info.msg_type.ordinal < s.check_msg_type.ordinal then .AddToLog
      else if m.info.msg_type.ordinal > s.check_msg_type.ordinal then .PushToBacklog
      else .Proceed
  else
    if s.working_block.is_none then .AddToLog
    else .AddToLog

/-- `_handle_not_ready`: either push the raw peer message to the backlog or
add the parsed message to the log, failing with `NotReadyForMessage`, or
proceed. -/
def handleNotReady (n : PbftNode) (not_ready : PbftNotReadyType) (m : PbftMessage)
    (content : PeerContent) : PbftNode × PbftResult :=
  let msg : PeerMessage := ⟨m.info.msg_type, content⟩
  match not_ready with
  | .PushToBacklog =>
    ({ n with msg_log := n.msg_log.push_backlog msg }, .err .NotReadyForMessage)
  | .AddToLog =>
    ({ n with msg_log := n.msg_log.add_message m }, .err .NotReadyForMessage)
  | .Proceed => (n, .ok)

/-- `_handle_pre_prepare`; on failure the partly mutated node is kept, as
in the source (a secondary adopts the sequence number before the rewrite
count is checked). -/
def handlePrePrepare (n : PbftNode) (m : PbftMessage) : PbftNode × PbftResult :=
  if m.info.view ≠ n.state.view then
    (n, .err (.ViewMismatch m.info.view n.state.view))
  else if n.msg_log.get_messages_of_type .PrePrepare m.info.seq_num m.info.view ≠ [] then
    (n, .err (.MessageExists .PrePrepare))
  else if n.state.is_primary then
    match n.msg_log.get_messages_of_type .BlockNew m.info.seq_num m.info.view with
    | [bn] =>
      if bn.block ≠ m.block then
        (n, .err (.BlockMismatch bn.block m.block))
      else
        ({ n with state := { n.state with working_block := .WorkingBlock m.block } }, .ok)
    | l => (n, .err (.WrongNumMessages .BlockNew 1 l.length))
  else
    let s1 := { n.state with seq_num := m.info.seq_num }
    let fixed := n.msg_log.fix_seq_nums .BlockNew m.info.seq_num m.info.view m.block
    if fixed.2 < 1 then
      ({ state := s1, msg_log := fixed.1 }, .err (.WrongNumMessages .BlockNew 1 fixed.2))
    else
      ({ state := { s1 with working_block := .WorkingBlock m.block },
         msg_log := fixed.1 }, .ok)

/-- The PrePrepare override in `on_peer_message`: the not-ready verdict is
ignored when the block of the message matches the tentative working block and the
message carries the local sequence number plus one. -/
def ignoreNotReady (s : PbftState) (m : PbftMessage) : Bool :=
  match s.working_block with
  | .TentativeWorkingBlock bid =>
    bid == m.block.block_id && m.info.seq_num == u64add s.seq_num 1
  | _ => false

/-- The PrePrepare arm of `on_peer_message`. -/
def prePrepareBranch (n : PbftNode) (msg : PeerMessage) (m : PbftMessage)
    (not_ready : PbftNotReadyType) : StepResult :=
  let step1 :=
    if ignoreNotReady n.state m then (n, PbftResult.ok)
    else handleNotReady n not_ready m msg.content
  match step1 with
  | (n1, .err e) => ⟨n1, [], .err e⟩
  | (n1, .ok) =>
    match handlePrePrepare n1 m with
    | (n2, .err e) => ⟨n2, [], .err e⟩
    | (n2, .ok) =>
      let n3 : PbftNode := { n2 with msg_log := n2.msg_log.add_message m }
      let s4 := (n3.state.switch_phase .Preparing).1
      ⟨{ n3 with state := s4 }, broadcastPbftMessage s4 m.info.seq_num .Prepare m.block, .ok⟩

/-- The Prepare arm of `on_peer_message`. -/
def prepareBranch (n : PbftNode) (env : ServiceEnv) (msg : PeerMessage)
    (m : PbftMessage) (not_ready : PbftNotReadyType) : StepResult :=
  match handleNotReady n not_ready m msg.content with
  | (n1, .err e) => ⟨n1, [], .err e⟩
  | (n1, .ok) =>
    let n2 : PbftNode := { n1 with msg_log := n1.msg_log.add_message m }
    match n2.msg_log.prepared m n2.state.f with
    | .err e => ⟨n2, [], .err e⟩
    | .ok =>
      if n2.state.phase ≠ .Checking then
        let s3 := (n2.state.switch_phase .Checking).1
        if env.check_blocks_ok then
          ⟨{ n2 with state := s3 }, [.CheckBlocks [m.block.block_id]], .ok⟩
        else
          ⟨{ n2 with state := s3 }, [.CheckBlocks [m.block.block_id]],
            .err (.InternalError "Failed to check blocks")⟩
      else
        ⟨n2, [], .ok⟩

/-- The Commit arm of `on_peer_message`. -/
def commitBranch (n : PbftNode) (env : ServiceEnv) (msg : PeerMessage)
    (m : PbftMessage) (not_ready : PbftNotReadyType) : StepResult :=
  match handleNotReady n not_ready m msg.content with
  | (n1, .err e) => ⟨n1, [], .err e⟩
  | (n1, .ok) =>
    let n2 : PbftNode := { n1 with msg_log := n1.msg_log.add_message m }
    match n2.msg_log.committed m n2.state.f with
    | .err e => ⟨n2, [], .err e⟩
    | .ok =>
      if n2.state.phase = .Committing then
        match n2.state.working_block with
        | .WorkingBlock wb =>
          let s3 := (n2.state.switch_phase .Finished).1
          let n3 : PbftNode := { n2 with state := s3 }
          if m.block.block_id ≠ wb.block_id ∧ m.block.block_num ≥ wb.block_num then
            ⟨n3, [], .err (.BlockMismatch m.block wb)⟩
          else
            match env.chain_head with
            | none => ⟨n3, [], .err (.InternalError "Failed to get chain head")⟩
            | some head =>
              match getBlockById env m.block.block_id with
              | none => ⟨n3, [], .err .WrongNumBlocks⟩
              | some cur_block =>
                if cur_block.previous_id ≠ head.block_id then
                  ⟨{ n3 with msg_log := n3.msg_log.push_backlog msg }, [],
                    .err (.BlockMismatch m.block wb)⟩
                else if env.commit_block_ok then
                  ⟨{ n3 with state := { n3.state with working_block := .NoWorkingBlock } },
                    [.CommitBlock m.block.block_id], .ok⟩
                else
                  ⟨n3, [.CommitBlock m.block.block_id],
                    .err (.InternalError "Failed to commit block")⟩
        | _ => ⟨n2, [], .err .NoWorkingBlock⟩
      else
        ⟨n2, [], .ok⟩

/-- `_handle_checkpoint`. -/
def handleCheckpoint (n : PbftNode) (m : PbftMessage) : StepResult :=
  let step1 : PbftNode × List Effect :=
    if n.state.is_primary = false ∧ n.state.mode ≠ .Checkpointing then
      let s := { n.state with
                 pre_checkpoint_mode := n.state.mode,
                 mode := PbftMode.Checkpointing }
      ({ n with state := s },
        broadcastPbftMessage s m.info.seq_num .Checkpoint PbftBlock.empty)
    else (n, [])
  match step1 with
  | (n1, effs) =>
    if n1.state.mode = .Checkpointing then
      match checkMsgAgainstLog (n1.msg_log.messages.map fun x => x.info) m.info
          (2 * n1.state.f + 1) with
      | .err e => ⟨n1, effs, .err e⟩
      | .ok =>
        ⟨{ state := { n1.state with mode := n1.state.pre_checkpoint_mode },
           msg_log := n1.msg_log.garbage_collect m.info.seq_num m.info.view },
          effs, .ok⟩
    else ⟨n1, effs, .ok⟩

/-- The Checkpoint arm of `on_peer_message`. -/
def checkpointBranch (n : PbftNode) (m : PbftMessage) : StepResult :=
  if n.msg_log.get_latest_checkpoint ≥ m.info.seq_num then
    ⟨n, [], .ok⟩
  else
    handleCheckpoint { n with msg_log := n.msg_log.add_message m } m

/-- `start_view_change`: idempotent when already view-changing; otherwise set
the mode, build a `ViewChange` at `view + 1` carrying the latest stable
checkpoint (or the empty placeholder at `seq_num = 0`) and broadcast it. -/
def startViewChange (n : PbftNode) : PbftNode × List Effect × PbftResult :=
  if n.state.mode = .ViewChanging then (n, [], .ok)
  else
    let s1 := { n.state with mode := PbftMode.ViewChanging }
    let cp :=
      match n.msg_log.latest_stable_checkpoint with
      | some c => c
      | none => (⟨0, []⟩ : PbftStableCheckpoint)
    let vc : PbftViewChange :=
      ⟨make_msg_info .ViewChange (u64add n.state.view 1) cp.seq_num s1.get_own_peer_id,
        cp.checkpoint_messages⟩
    ({ n with state := s1 }, [.BroadcastVC .ViewChange vc], .ok)

/-- The service effects of ignoring the current working block when this node
becomes the new primary. -/
def ignoreWorkingEffects : WorkingBlockOption → List Effect
  | .WorkingBlock wb => [.IgnoreBlock wb.block_id]
  | .TentativeWorkingBlock bid => [.IgnoreBlock bid]
  | .NoWorkingBlock => []

/-- `_handle_view_change`. -/
def handleViewChange (n : PbftNode) (m : PbftViewChange) : StepResult :=
  match checkMsgAgainstLog (n.msg_log.view_changes.map fun x => x.info) m.info
      (2 * n.state.f + 1) with
  | .err e => ⟨n, [], .err e⟩
  | .ok =>
    let s1 := { n.state with view := m.info.view }
    if s1.get_own_peer_id = s1.get_primary_peer_id then
      let s2 := s1.upgrade_role
      let effs := [Effect.CancelBlock] ++ ignoreWorkingEffects s2.working_block
        ++ [Effect.InitBlock none]
      let s3 := { s2 with
                  working_block := WorkingBlockOption.NoWorkingBlock,
                  phase := PbftPhase.NotStarted, mode := PbftMode.Normal,
                  timeout := ⟨false⟩ }
      ⟨{ n with state := s3 }, effs, .ok⟩
    else
      let s2 := s1.downgrade_role
      let s3 := { s2 with
                  working_block := WorkingBlockOption.NoWorkingBlock,
                  phase := PbftPhase.NotStarted, mode := PbftMode.Normal,
                  timeout := ⟨false⟩ }
      ⟨{ n with state := s3 }, [], .ok⟩

/-- The ViewChange arm of `on_peer_message`. -/
def viewChangeBranch (n : PbftNode) (m : PbftViewChange) : StepResult :=
  let n1 : PbftNode := { n with msg_log := n.msg_log.add_view_change m }
  if n1.state.mode ≠ .ViewChanging then
    if (checkMsgAgainstLog (n1.msg_log.view_changes.map fun x => x.info) m.info
          (n1.state.f + 1)).isOk = true ∧ m.info.view > n1.state.view then
      match startViewChange n1 with
      | (n2, effs, .err e) => ⟨n2, effs, .err e⟩
      | (n2, effs, .ok) =>
        match handleViewChange n2 m with
        | ⟨n3, effs2, r⟩ => ⟨n3, effs ++ effs2, r⟩
    else ⟨n1, [], .ok⟩
  else handleViewChange n1 m

/-- `on_peer_message`: dispatch on the message type; multicast messages first
receive a not-ready verdict. -/
def onPeerMessage (n : PbftNode) (env : ServiceEnv) (msg : PeerMessage) : StepResult :=
  if msg.message_type.is_multicast then
    match msg.content with
    | .pbft m =>
      let not_ready := handleMulticast n.state m
      match msg.message_type with
      | .PrePrepare => prePrepareBranch n msg m not_ready
      | .Prepare => prepareBranch n env msg m not_ready
      | .Commit => commitBranch n env msg m not_ready
      | _ => ⟨n, [], .ok⟩
    | _ => ⟨n, [], .err .SerializationError⟩
  else
    match msg.message_type with
    | .Checkpoint =>
      match msg.content with
      | .pbft m => checkpointBranch n m
      | _ => ⟨n, [], .err .SerializationError⟩
    | .ViewChange =>
      match msg.content with
      | .vc m => viewChangeBranch n m
      | _ => ⟨n, [], .err .SerializationError⟩
    | _ => ⟨n, [], .ok⟩

/-- `on_block_new`. -/
def onBlockNew (n : PbftNode) (env : ServiceEnv) (block : Block) : StepResult :=
  let pbft_block := pbft_block_from_block block
  let stamped : PbftState × PbftMessage :=
    if n.state.is_primary then
      let s := { n.state with seq_num := u64add n.state.seq_num 1 }
      (s, ⟨make_msg_info .BlockNew s.view s.seq_num s.get_own_peer_id, pbft_block⟩)
    else
      (n.state, ⟨make_msg_info .BlockNew n.state.view 0 n.state.get_own_peer_id,
        pbft_block⟩)
  match stamped with
  | (s0, msg) =>
    match env.chain_head with
    | none => ⟨{ n with state := s0 }, [], .err (.InternalError "Failed to get chain head")⟩
    | some head =>
      if block.block_num > u64add head.block_num 1 then
        ⟨{ state := s0, msg_log := n.msg_log.push_block_backlog block }, [], .ok⟩
      else
        match s0.switch_phase .PrePreparing with
        | (s1, none) =>
          ⟨{ state := s1, msg_log := n.msg_log.push_block_backlog block }, [], .ok⟩
        | (s1, some _) =>
          let s2 := { s1 with
                      working_block := WorkingBlockOption.TentativeWorkingBlock block.block_id,
                      timeout := (⟨true⟩ : TimeoutState) }
          ⟨{ state := s2, msg_log := n.msg_log.add_message msg },
            (if s2.is_primary then broadcastPbftMessage s2 s2.seq_num .PrePrepare pbft_block
             else []), .ok⟩

/-- `on_block_valid`. -/
def onBlockValid (n : PbftNode) (env : ServiceEnv) (block_id : Bytes) : StepResult :=
  let s1 := (n.state.switch_phase .Committing).1
  let n1 : PbftNode := { n with state := s1 }
  match env.getBlocks [block_id] with
  | [] => ⟨n1, [], .err .WrongNumBlocks⟩
  | b :: _ =>
    ⟨n1, broadcastPbftMessage s1 s1.seq_num .Commit (pbft_block_from_block b), .ok⟩

/-- Modelled from the spec: the initial node state — view `0`, sequence
number `0`, `f = (N - 1) / 3`, phase `NotStarted`, mode `Normal`, the role
derived from the roster position for view `0` (§3, §4.2). -/
def initState (id : Nat) (roster : List Bytes) : PbftState :=
  { id := id, peer_id := roster.getD id [], peers := roster,
    view := 0, seq_num := 0, f := (roster.length - 1) / 3,
    phase := .NotStarted, mode := .Normal, pre_checkpoint_mode := .Normal,
    role := if roster.getD 0 [] = roster.getD id [] then .Primary else .Secondary,
    working_block := .NoWorkingBlock, timeout := ⟨false⟩ }

/-- A freshly constructed node with an empty log. -/
def initNode (id : Nat) (roster : List Bytes) : PbftNode :=
  ⟨initState id roster, PbftLog.emptyLog⟩

/-- The not-ready verdict table exactly as the specification words it
(§4.1.1), read top-down. -/
def specVerdict (s : PbftState) (m : PbftMessage) : PbftNotReadyType :=
  if m.info.seq_num > s.seq_num then .PushToBacklog
  else if m.info.seq_num = s.seq_num ∧ s.working_block = .NoWorkingBlock then .AddToLog
  else if m.info.seq_num = s.seq_num ∧
      m.info.msg_type.ordinal < s.check_msg_type.ordinal then .AddToLog
  else if m.info.seq_num = s.seq_num ∧
      m.info.msg_type.ordinal > s.check_msg_type.ordinal then .PushToBacklog
  else if m.info.seq_num = s.seq_num ∧ m.info.msg_type = s.check_msg_type then .Proceed
  else .AddToLog

/-- The logged-PrePrepare uniqueness invariant as the specification claims
it: any two logged `PrePrepare` messages with equal `(view, seq_num)` are
equal. -/
def prePrepareUnique (l : PbftLog) : Prop :=
  ∀ m1 ∈ l.messages, ∀ m2 ∈ l.messages,
    m1.info.msg_type = .PrePrepare → m2.info.msg_type = .PrePrepare →
    m1.info.view = m2.info.view → m1.info.seq_num = m2.info.seq_num → m1 = m2

/-! Concrete data used to instantiate the theorems below on executable
inputs. -/

/-- A four-node roster (`N = 4`, `f = 1`), peers `P0..P3`. -/
def roster4 : List Bytes := [[0], [1], [2], [3]]

/-- A sample environment whose service data is never consulted. -/
def env0 : ServiceEnv := ⟨none, [], true, true⟩

def blockA : PbftBlock := ⟨[10], [0], 1, []⟩

def blockB : PbftBlock := ⟨[11], [0], 1, []⟩

/-- Two PrePrepare peer messages for `(view 0, seq 0)` from different
signers carrying different blocks. -/
def cm1 : PeerMessage := ⟨.PrePrepare, .pbft ⟨⟨.PrePrepare, 0, 0, [0]⟩, blockA⟩⟩

def cm2 : PeerMessage := ⟨.PrePrepare, .pbft ⟨⟨.PrePrepare, 0, 0, [2]⟩, blockB⟩⟩

/-- The working (accepted) block of the C1 counterexample node: id `[9]`,
block number `5`. -/
def wbC1 : PbftBlock := ⟨[9], [0], 5, []⟩

/-- The committed block of the C1 counterexample: a different id `[1]` with a
lower block number `1`. -/
def blkC1 : PbftBlock := ⟨[1], [0], 1, []⟩

def mC1 : PbftMessage := ⟨⟨.Commit, 0, 1, [7]⟩, blkC1⟩

/-- A single-node state (`f = 0`) in phase `Committing` with accepted
working block `wbC1`. -/
def sC1 : PbftState :=
  { id := 0, peer_id := [0], peers := [[0]], view := 0, seq_num := 1, f := 0,
    phase := .Committing, mode := .Normal, pre_checkpoint_mode := .Normal,
    role := .Secondary, working_block := .WorkingBlock wbC1, timeout := ⟨true⟩ }

/-- A log holding the PrePrepare and Prepare quorum (at `f = 0`) for
`blkC1` at `(view 0, seq 1)`. -/
def logC1 : PbftLog :=
  ⟨[⟨⟨.PrePrepare, 0, 1, [0]⟩, blkC1⟩, ⟨⟨.Prepare, 0, 1, [0]⟩, blkC1⟩], [], [], [], none⟩

def headC1 : Block := ⟨[3], [2], [0], 4, [], []⟩

def curC1 : Block := ⟨[1], [3], [0], 1, [], []⟩

def envC1 : ServiceEnv := ⟨some headC1, [([1], curC1)], true, true⟩

/-- The C1 witness blocks: the working block has number `1`, the committed
one a different id and number `5 ≥ 1`. -/
def wbW1 : PbftBlock := ⟨[9], [0], 1, []⟩

def blkW1 : PbftBlock := ⟨[1], [0], 5, []⟩

def mW1 : PbftMessage := ⟨⟨.Commit, 0, 1, [7]⟩, blkW1⟩

def sW1 : PbftState :=
  { id := 0, peer_id := [0], peers := [[0]], view := 0, seq_num := 1, f := 0,
    phase := .Committing, mode := .Normal, pre_checkpoint_mode := .Normal,
    role := .Secondary, working_block := .WorkingBlock wbW1, timeout := ⟨true⟩ }

def logW1 : PbftLog :=
  ⟨[⟨⟨.PrePrepare, 0, 1, [0]⟩, blkW1⟩, ⟨⟨.Prepare, 0, 1, [0]⟩, blkW1⟩], [], [], [], none⟩

/-- A secondary in `PrePreparing` holding the tentative block `[10]` and a
logged `BlockNew` for `blockA`. -/
def sW3 : PbftState :=
  { id := 1, peer_id := [1], peers := roster4, view := 0, seq_num := 0, f := 1,
    phase := .PrePreparing, mode := .Normal, pre_checkpoint_mode := .Normal,
    role := .Secondary, working_block := .TentativeWorkingBlock [10], timeout := ⟨true⟩ }

def logW3 : PbftLog := ⟨[⟨⟨.BlockNew, 0, 0, [1]⟩, blockA⟩], [], [], [], none⟩

/-- The PrePrepare of the primary for `(view 0, seq 1)` carrying `blockA`. -/
def mW3 : PbftMessage := ⟨⟨.PrePrepare, 0, 1, [0]⟩, blockA⟩

def msgW3 : PeerMessage := ⟨.PrePrepare, .pbft mW3⟩

/-- View-change messages for view `1` at sequence `1` from three signers. -/
def vc0 : PbftViewChange := ⟨⟨.ViewChange, 1, 1, [0]⟩, []⟩

def vc1 : PbftViewChange := ⟨⟨.ViewChange, 1, 1, [1]⟩, []⟩

def vc2 : PbftViewChange := ⟨⟨.ViewChange, 1, 1, [2]⟩, []⟩

/-- A secondary in mode `Normal` that has already logged two view-change
messages for view `1`. -/
def nW5 : PbftNode :=
  ⟨{ id := 1, peer_id := [1], peers := roster4, view := 0, seq_num := 1, f := 1,
     phase := .NotStarted, mode := .Normal, pre_checkpoint_mode := .Normal,
     role := .Secondary, working_block := .NoWorkingBlock, timeout := ⟨false⟩ },
   ⟨[], [vc0, vc1], [], [], none⟩⟩

/-- A secondary already in mode `ViewChanging` holding a tentative working
block, with a full view-change quorum for view `1` logged. -/
def nW6 : PbftNode :=
  ⟨{ id := 1, peer_id := [1], peers := roster4, view := 0, seq_num := 1, f := 1,
     phase := .Preparing, mode := .ViewChanging, pre_checkpoint_mode := .Normal,
     role := .Secondary, working_block := .TentativeWorkingBlock [10], timeout := ⟨true⟩ },
   ⟨[], [vc0, vc1, vc2], [], [], none⟩⟩

/-- A fresh primary node (`P0`) in phase `NotStarted`. -/
def sW7 : PbftState :=
  { id := 0, peer_id := [0], peers := roster4, view := 0, seq_num := 0, f := 1,
    phase := .NotStarted, mode := .Normal, pre_checkpoint_mode := .Normal,
    role := .Primary, working_block := .NoWorkingBlock, timeout := ⟨false⟩ }

def headW7 : Block := ⟨[20], [19], [0], 0, [], []⟩

def blockW7 : Block := ⟨[21], [20], [0], 1, [], []⟩

def envW7 : ServiceEnv := ⟨some headW7, [], true, true⟩

/-- A secondary in `Preparing` whose log holds a PrePrepare and two Prepares
for `blockA` at `(view 0, seq 1)`. -/
def sW8 : PbftState :=
  { id := 1, peer_id := [1], peers := roster4, view := 0, seq_num := 1, f := 1,
    phase := .Preparing, mode := .Normal, pre_checkpoint_mode := .Normal,
    role := .Secondary, working_block := .WorkingBlock blockA, timeout := ⟨true⟩ }

def logW8 : PbftLog :=
  ⟨[⟨⟨.PrePrepare, 0, 1, [0]⟩, blockA⟩, ⟨⟨.Prepare, 0, 1, [0]⟩, blockA⟩,
    ⟨⟨.Prepare, 0, 1, [1]⟩, blockA⟩], [], [], [], none⟩

def mW8 : PbftMessage := ⟨⟨.Prepare, 0, 1, [2]⟩, blockA⟩

def msgW8 : PeerMessage := ⟨.Prepare, .pbft mW8⟩

/-- A secondary in mode `Normal` at sequence `10` holding two Checkpoint
messages for `(view 0, seq 10)`. -/
def nW9 : PbftNode :=
  ⟨{ id := 1, peer_id := [1], peers := roster4, view := 0, seq_num := 10, f := 1,
     phase := .NotStarted, mode := .Normal, pre_checkpoint_mode := .Normal,
     role := .Secondary, working_block := .NoWorkingBlock, timeout := ⟨false⟩ },
   ⟨[⟨⟨.Checkpoint, 0, 10, [0]⟩, PbftBlock.empty⟩,
     ⟨⟨.Checkpoint, 0, 10, [1]⟩, PbftBlock.empty⟩], [], [], [], none⟩⟩

def mW9 : PbftMessage := ⟨⟨.Checkpoint, 0, 10, [2]⟩, PbftBlock.empty⟩

/-- A secondary in phase `Checking` used for the `on_block_valid` witness. -/
def sW10 : PbftState :=
  { id := 1, peer_id := [1], peers := roster4, view := 0, seq_num := 1, f := 1,
    phase := .Checking, mode := .Normal, pre_checkpoint_mode := .Normal,
    role := .Secondary, working_block := .WorkingBlock blockA, timeout := ⟨true⟩ }

def envW10 : ServiceEnv := ⟨some headC1, [], true, true⟩

instance (l : PbftLog) : Decidable (prePrepareUnique l) := by
  unfold prePrepareUnique
  exact inferInstance

theorem WorkingBlockOption.is_none_iff (w : WorkingBlockOption) :
    w.is_none = true ↔ w = .NoWorkingBlock := by
  cases w <;> simp [WorkingBlockOption.is_none]

theorem PbftMessageType.ordinal_inj {a b : PbftMessageType} :
    a.ordinal = b.ordinal → a = b := by
  cases a <;> cases b <;> decide

/-- A `Proceed` verdict can only arise when the type of the message is exactly the
expected one. -/
theorem handleMulticast_proceed_type {s : PbftState} {m : PbftMessage}
    (h : handleMulticast s m = .Proceed) : m.info.msg_type = s.check_msg_type := by
  unfold handleMulticast at h
  split_ifs at h
  exact PbftMessageType.ordinal_inj (Nat.le_antisymm (Nat.le_of_not_lt (by assumption))
    (Nat.le_of_not_lt (by assumption)))

/-- A `Proceed` verdict also pins the sequence number of the message to the local
one. -/
theorem handleMulticast_proceed_seq {s : PbftState} {m : PbftMessage}
    (h : handleMulticast s m = .Proceed) : m.info.seq_num = s.seq_num := by
  unfold handleMulticast at h
  split_ifs at h
  assumption

theorem check_msg_type_eq_prepare {s : PbftState}
    (h : s.check_msg_type = .Prepare) : s.phase = .Preparing ∨ s.phase = .Checking := by
  cases hp : s.phase <;> simp [PbftState.check_msg_type, hp] at h ⊢

/-- Claim C2: for every incoming multicast message the not-ready verdict of
`_handle_multicast` coincides with the table of the specification, and the three
verdicts act as specified: `PushToBacklog` enqueues the raw peer message on
the FIFO peer backlog and aborts with `NotReadyForMessage`, `AddToLog` logs
the parsed message and aborts with `NotReadyForMessage`, and `Proceed`
continues. -/
theorem multicast_verdict_matches_spec_table :
    (∀ (s : PbftState) (m : PbftMessage), handleMulticast s m = specVerdict s m) ∧
    (∀ (n : PbftNode) (m : PbftMessage) (c : PeerContent),
      handleNotReady n .PushToBacklog m c =
        ({ n with msg_log := n.msg_log.push_backlog ⟨m.info.msg_type, c⟩ },
          .err .NotReadyForMessage)) ∧
    (∀ (n : PbftNode) (m : PbftMessage) (c : PeerContent),
      handleNotReady n .AddToLog m c =
        ({ n with msg_log := n.msg_log.add_message m }, .err .NotReadyForMessage)) ∧
    (∀ (n : PbftNode) (m : PbftMessage) (c : PeerContent),
      handleNotReady n .Proceed m c = (n, .ok)) := by
  refine ⟨?_, fun n m c => rfl, fun n m c => rfl, fun n m c => rfl⟩
  intro s m
  unfold handleMulticast specVerdict
  by_cases h1 : m.info.seq_num > s.seq_num
  · simp [h1]
  · by_cases h2 : m.info.seq_num = s.seq_num
    · by_cases h3 : s.working_block = WorkingBlockOption.NoWorkingBlock
      · simp [h1, h2, h3, WorkingBlockOption.is_none]
      · have h3b : s.working_block.is_none = false := by
          cases hw : s.working_block <;> simp_all [WorkingBlockOption.is_none]
        by_cases h4 : m.info.msg_type.ordinal < s.check_msg_type.ordinal
        · simp [h1, h2, h3, h3b, h4]
        · by_cases h5 : m.info.msg_type.ordinal > s.check_msg_type.ordinal
          · simp [h1, h2, h3, h3b, h4, h5]
          · have h6 : m.info.msg_type = s.check_msg_type :=
              PbftMessageType.ordinal_inj
                (Nat.le_antisymm (Nat.le_of_not_lt h5) (Nat.le_of_not_lt h4))
            simp [h1, h2, h3, h3b, h4, h5, h6]
    · cases hw : s.working_block <;> simp [h1, h2, hw, WorkingBlockOption.is_none]

/-- Claim C10: `on_block_valid` switches the phase toward `Committing` before
`get_blocks` is consulted, so when no block is returned the call fails with
`WrongNumBlocks` while the phase change persists. -/
theorem block_valid_phase_switch_not_atomic (n : PbftNode) (env : ServiceEnv)
    (block_id : Bytes)
    (hempty : env.getBlocks [block_id] = [])
    (hphase : n.state.phase = .Checking) :
    onBlockValid n env block_id =
      ⟨⟨{ n.state with phase := .Committing }, n.msg_log⟩, [], .err .WrongNumBlocks⟩ := by
  unfold onBlockValid
  rw [hempty]
  have hs : n.state.switch_phase .Committing =
      ({ n.state with phase := .Committing }, some .Committing) := by
    unfold PbftState.switch_phase
    rw [if_pos]
    rw [hphase]
    left
    rfl
  rw [hs]

theorem block_valid_phase_switch_not_atomic_witness :
    onBlockValid ⟨sW10, PbftLog.emptyLog⟩ envW10 [10] =
      ⟨⟨{ sW10 with phase := .Committing }, PbftLog.emptyLog⟩, [],
        .err .WrongNumBlocks⟩ :=
  block_valid_phase_switch_not_atomic ⟨sW10, PbftLog.emptyLog⟩ envW10 [10]
    (by decide) (by decide)

/-- Claim C1 counterexample: at this concrete input the committed predicate
succeeds in phase `Committing` with accepted working block `wbC1`, the
block of the message fails the verification the claim requires (different block id,
lower block number), yet the handler does not reject it as `BlockMismatch` —
it reaches `service.commit_block`. -/
theorem commit_low_number_mismatch_commits :
    ¬ (mC1.block.block_id = wbC1.block_id ∧ mC1.block.block_num ≥ wbC1.block_num) ∧
    sC1.phase = .Committing ∧ sC1.working_block = .WorkingBlock wbC1 ∧
    (logC1.add_message mC1).committed mC1 sC1.f = .ok ∧
    (onPeerMessage ⟨sC1, logC1⟩ envC1 ⟨.Commit, .pbft mC1⟩).result = .ok ∧
    (onPeerMessage ⟨sC1, logC1⟩ envC1 ⟨.Commit, .pbft mC1⟩).effects =
      [.CommitBlock blkC1.block_id] := by
  decide

/-- Claim C1 (amended): with the committed predicate satisfied in phase
`Committing` over accepted working block `wb`, the handler rejects with
`BlockMismatch` exactly when the block id of the message differs from that of the working
block AND its block number is at least that of the working block; a
`commit_block` call can only happen for a message whose block id matches the
working block or whose block number is below it. -/
theorem commit_verification_is_conjunctive (n : PbftNode) (env : ServiceEnv)
    (msg : PeerMessage) (m : PbftMessage) (wb : PbftBlock)
    (hph : n.state.phase = .Committing)
    (hwb : n.state.working_block = .WorkingBlock wb)
    (hnr : handleMulticast n.state m = .Proceed) :
    ((n.msg_log.add_message m).committed m n.state.f = .ok →
      m.block.block_id ≠ wb.block_id → m.block.block_num ≥ wb.block_num →
      commitBranch n env msg m (handleMulticast n.state m) =
        ⟨⟨{ n.state with phase := .Finished }, n.msg_log.add_message m⟩, [],
          .err (.BlockMismatch m.block wb)⟩) ∧
    (∀ bid, Effect.CommitBlock bid ∈
        (commitBranch n env msg m (handleMulticast n.state m)).effects →
      m.block.block_id = wb.block_id ∨ m.block.block_num < wb.block_num) := by
  rw [hnr]
  constructor
  · intro hcom hid hnum
    simp only [commitBranch, handleNotReady]
    simp only [hcom, hph, hwb, PbftState.switch_phase, PbftPhase.next]
    simp [hid, hnum]
  · intro bid hmem
    simp only [commitBranch, handleNotReady] at hmem
    by_cases hchk : m.block.block_id ≠ wb.block_id ∧ m.block.block_num ≥ wb.block_num
    · cases hcom2 : (n.msg_log.add_message m).committed m n.state.f with
      | err e => simp [hcom2] at hmem
      | ok => simp [hcom2, hph, hwb, hchk, PbftState.switch_phase, PbftPhase.next] at hmem
    · rcases not_and_or.mp hchk with h | h
      · exact Or.inl (not_not.mp h)
      · exact Or.inr (Nat.lt_of_not_le h)

theorem commit_verification_is_conjunctive_witness :
    commitBranch ⟨sW1, logW1⟩ envC1 ⟨.Commit, .pbft mW1⟩ mW1
        (handleMulticast sW1 mW1) =
      ⟨⟨{ sW1 with phase := .Finished }, logW1.add_message mW1⟩, [],
        .err (.BlockMismatch mW1.block wbW1)⟩ :=
  (commit_verification_is_conjunctive ⟨sW1, logW1⟩ envC1 ⟨.Commit, .pbft mW1⟩ mW1 wbW1
      (by decide) (by decide) (by decide)).1 (by decide) (by decide) (by decide)

/-- Claim C3 counterexample: starting from a freshly constructed secondary
(node 1 of a four-node roster), two `on_peer_message` calls deliver two
distinct PrePrepare messages with the same `(view, seq_num)`; both take the
`AddToLog` not-ready path, so the resulting reachable log violates the
at-most-one-PrePrepare-per-`(view, seq_num)` invariant. -/
theorem pre_prepare_uniqueness_fails_via_add_to_log :
    ¬ prePrepareUnique
      (onPeerMessage (onPeerMessage (initNode 1 roster4) env0 cm1).node
        env0 cm2).node.msg_log := by
  decide

/-- Claim C3 (amended): the at-most-one-PrePrepare-per-`(view, seq_num)` rule
is enforced only on the PrePrepare processing path: `_handle_pre_prepare`
proceeds only when no PrePrepare is logged at the
`(view, seq_num)` (otherwise it fails with `MessageExists`); the `AddToLog`
not-ready path logs PrePrepare messages without this check, so the invariant
can fail in reachable log states. -/
theorem pre_prepare_handler_rejects_duplicates (n : PbftNode) (m : PbftMessage)
    (hok : (handlePrePrepare n m).2 = .ok) :
    n.msg_log.get_messages_of_type .PrePrepare m.info.seq_num m.info.view = [] := by
  by_contra hne
  unfold handlePrePrepare at hok
  by_cases h1 : m.info.view ≠ n.state.view
  · simp [h1] at hok
  · simp [h1, hne] at hok

theorem pre_prepare_handler_rejects_duplicates_witness :
    logW3.get_messages_of_type .PrePrepare mW3.info.seq_num mW3.info.view = [] :=
  pre_prepare_handler_rejects_duplicates ⟨sW3, logW3⟩ mW3 (by decide)

/-- Claim C4: a secondary processing a PrePrepare past the not-ready stage
(`Proceed` verdict or the tentative-block override) with matching view and no
logged duplicate adopts `seq_num = m.seq_num`, rewrites the logged `BlockNew`
entries matching the block to carry it — failing with
`WrongNumMessages(BlockNew, 1, 0)` when none is rewritten — sets the working
block to `Accepted(m.block)`, logs the PrePrepare, advances the phase to
`Preparing` and broadcasts a `Prepare` for `(seq_num, block)`. -/
theorem pre_prepare_secondary_adoption (n : PbftNode) (msg : PeerMessage)
    (m : PbftMessage)
    (hnr : handleMulticast n.state m = .Proceed ∨ ignoreNotReady n.state m = true)
    (hview : m.info.view = n.state.view)
    (hdup : n.msg_log.get_messages_of_type .PrePrepare m.info.seq_num m.info.view = [])
    (hsec : n.state.is_primary = false)
    (hphase : n.state.phase = .PrePreparing) :
    ((n.msg_log.fix_seq_nums .BlockNew m.info.seq_num m.info.view m.block).2 ≥ 1 →
      prePrepareBranch n msg m (handleMulticast n.state m) =
        ⟨⟨{ n.state with
            seq_num := m.info.seq_num,
            working_block := .WorkingBlock m.block, phase := .Preparing },
           ((n.msg_log.fix_seq_nums .BlockNew m.info.seq_num m.info.view m.block).1).add_message m⟩,
          [.Broadcast .Prepare ⟨⟨.Prepare, n.state.view, m.info.seq_num, n.state.peer_id⟩,
            m.block⟩],
          .ok⟩) ∧
    ((n.msg_log.fix_seq_nums .BlockNew m.info.seq_num m.info.view m.block).2 = 0 →
      prePrepareBranch n msg m (handleMulticast n.state m) =
        ⟨⟨{ n.state with seq_num := m.info.seq_num },
           (n.msg_log.fix_seq_nums .BlockNew m.info.seq_num m.info.view m.block).1⟩,
          [], .err (.WrongNumMessages .BlockNew 1 0)⟩) := by
  have hstep1 : (if ignoreNotReady n.state m then (n, PbftResult.ok)
      else handleNotReady n (handleMulticast n.state m) m msg.content) = (n, .ok) := by
    rcases hnr with h | h
    · by_cases hig : ignoreNotReady n.state m
      · simp [hig]
      · simp [hig, h, handleNotReady]
    · simp [h]
  constructor
  · intro hfix
    have hpp : handlePrePrepare n m =
        (⟨{ n.state with seq_num := m.info.seq_num, working_block := .WorkingBlock m.block },
          (n.msg_log.fix_seq_nums .BlockNew m.info.seq_num m.info.view m.block).1⟩, .ok) := by
      unfold handlePrePrepare
      rw [if_neg (by simp [hview]), if_neg (by simp [hdup]), if_neg (by simp [hsec])]
      simp only []
      rw [if_neg (Nat.not_lt.mpr hfix)]
    unfold prePrepareBranch
    rw [hstep1]
    simp only [hpp]
    simp [broadcastPbftMessage, PbftState.switch_phase, PbftPhase.next, hphase,
      PbftState.check_msg_type, PbftState.get_own_peer_id, make_msg_info,
      PbftMessageType.is_multicast]
  · intro hfix0
    have hpp : handlePrePrepare n m =
        (⟨{ n.state with seq_num := m.info.seq_num },
          (n.msg_log.fix_seq_nums .BlockNew m.info.seq_num m.info.view m.block).1⟩,
          .err (.WrongNumMessages .BlockNew 1 0)) := by
      unfold handlePrePrepare
      rw [if_neg (by simp [hview]), if_neg (by simp [hdup]), if_neg (by simp [hsec])]
      simp only []
      rw [hfix0]
      simp
    unfold prePrepareBranch
    rw [hstep1]
    simp only [hpp]

theorem pre_prepare_secondary_adoption_witness :
    prePrepareBranch ⟨sW3, logW3⟩ msgW3 mW3 (handleMulticast sW3 mW3) =
      ⟨⟨{ sW3 with
          seq_num := 1, working_block := .WorkingBlock blockA,
          phase := .Preparing },
         ((logW3.fix_seq_nums .BlockNew 1 0 blockA).1).add_message mW3⟩,
        [.Broadcast .Prepare ⟨⟨.Prepare, 0, 1, [1]⟩, blockA⟩], .ok⟩ :=
  (pre_prepare_secondary_adoption ⟨sW3, logW3⟩ msgW3 mW3 (Or.inr (by decide))
      (by decide) (by decide) (by decide) (by decide)).1 (by decide)

theorem mem_add_view_change (l : PbftLog) (m : PbftViewChange) :
    m ∈ (l.add_view_change m).view_changes := by
  unfold PbftLog.add_view_change
  by_cases h : m ∈ l.view_changes
  · rw [if_pos h]
    exact h
  · simp [h]

/-- `_handle_view_change` below the quorum leaves the node untouched. -/
theorem handleViewChange_err (n : PbftNode) (m : PbftViewChange) (e : PbftError)
    (h : checkMsgAgainstLog (n.msg_log.view_changes.map fun x => x.info) m.info
        (2 * n.state.f + 1) = .err e) :
    handleViewChange n m = ⟨n, [], .err e⟩ := by
  unfold handleViewChange
  rw [h]

/-- `_handle_view_change` at the quorum: the state fields after the reset. -/
theorem handleViewChange_ok_state (n : PbftNode) (m : PbftViewChange)
    (h : checkMsgAgainstLog (n.msg_log.view_changes.map fun x => x.info) m.info
        (2 * n.state.f + 1) = .ok) :
    (handleViewChange n m).node.state.view = m.info.view ∧
    (handleViewChange n m).node.state.mode = .Normal ∧
    (handleViewChange n m).node.state.phase = .NotStarted ∧
    (handleViewChange n m).node.state.working_block = .NoWorkingBlock ∧
    (handleViewChange n m).node.state.timeout = ⟨false⟩ ∧
    (handleViewChange n m).node.msg_log = n.msg_log ∧
    (handleViewChange n m).result = .ok := by
  unfold handleViewChange
  rw [h]
  by_cases hp : ({ n.state with view := m.info.view } : PbftState).get_own_peer_id =
      ({ n.state with view := m.info.view } : PbftState).get_primary_peer_id
  · simp [hp, PbftState.upgrade_role]
  · simp [hp, PbftState.downgrade_role]

/-- `_handle_view_change` never touches the message log. -/
theorem handleViewChange_log (n : PbftNode) (m : PbftViewChange) :
    (handleViewChange n m).node.msg_log = n.msg_log := by
  unfold handleViewChange
  cases h : checkMsgAgainstLog (n.msg_log.view_changes.map fun x => x.info) m.info
      (2 * n.state.f + 1) with
  | ok =>
    by_cases hp : ({ n.state with view := m.info.view } : PbftState).get_own_peer_id =
        ({ n.state with view := m.info.view } : PbftState).get_primary_peer_id
    · simp [hp, PbftState.upgrade_role]
    · simp [hp, PbftState.downgrade_role]
  | err e => rfl

/-- `start_view_change` outside `ViewChanging` mode switches the mode and
succeeds, leaving the log alone. -/
theorem startViewChange_not_changing (n : PbftNode)
    (h : n.state.mode ≠ .ViewChanging) :
    ∃ effs, startViewChange n =
      ({ n with state := { n.state with mode := PbftMode.ViewChanging } }, effs, .ok) := by
  unfold startViewChange
  rw [if_neg h]
  exact ⟨_, rfl⟩

/-- Claim C5: an incoming ViewChange message is always logged first; when
not in `ViewChanging` mode the node ignores it unless at least `f + 1`
matching view-change messages for a view higher than the current one are
present, in which case `start_view_change` runs (so the mode becomes
`ViewChanging`); the view itself is updated only once the `2f + 1` quorum is
found. -/
theorem view_change_always_logged_then_threshold (n : PbftNode) (m : PbftViewChange) :
    (m ∈ (viewChangeBranch n m).node.msg_log.view_changes) ∧
    (n.state.mode ≠ .ViewChanging →
      (¬ ((checkMsgAgainstLog
              ((n.msg_log.add_view_change m).view_changes.map fun x => x.info) m.info
              (n.state.f + 1)).isOk = true ∧ m.info.view > n.state.view) →
        viewChangeBranch n m =
          ⟨{ n with msg_log := n.msg_log.add_view_change m }, [], .ok⟩) ∧
      (((checkMsgAgainstLog
              ((n.msg_log.add_view_change m).view_changes.map fun x => x.info) m.info
              (n.state.f + 1)).isOk = true ∧ m.info.view > n.state.view) →
        (∀ e, checkMsgAgainstLog
              ((n.msg_log.add_view_change m).view_changes.map fun x => x.info) m.info
              (2 * n.state.f + 1) = .err e →
          (viewChangeBranch n m).node.state.mode = .ViewChanging ∧
          (viewChangeBranch n m).node.state.view = n.state.view) ∧
        (checkMsgAgainstLog
              ((n.msg_log.add_view_change m).view_changes.map fun x => x.info) m.info
              (2 * n.state.f + 1) = .ok →
          (viewChangeBranch n m).node.state.view = m.info.view ∧
          (viewChangeBranch n m).node.state.mode = .Normal))) ∧
    ((viewChangeBranch n m).node.state.view ≠ n.state.view →
      checkMsgAgainstLog ((n.msg_log.add_view_change m).view_changes.map fun x => x.info)
        m.info (2 * n.state.f + 1) = .ok) := by
  by_cases hm : n.state.mode = .ViewChanging
  · have hbr : viewChangeBranch n m =
        handleViewChange { n with msg_log := n.msg_log.add_view_change m } m := by
      unfold viewChangeBranch
      dsimp only
      rw [if_neg (not_not_intro hm)]
    refine ⟨?_, fun hcon => absurd hm hcon, ?_⟩
    · rw [hbr, handleViewChange_log]
      exact mem_add_view_change _ _
    · intro hv
      cases hq : checkMsgAgainstLog
          ((n.msg_log.add_view_change m).view_changes.map fun x => x.info) m.info
          (2 * n.state.f + 1) with
      | ok => rfl
      | err e =>
        rw [hbr, handleViewChange_err { n with msg_log := n.msg_log.add_view_change m }
          m e hq] at hv
        exact absurd rfl hv
  · by_cases hc : (checkMsgAgainstLog
        ((n.msg_log.add_view_change m).view_changes.map fun x => x.info) m.info
        (n.state.f + 1)).isOk = true ∧ m.info.view > n.state.view
    · obtain ⟨effs, hsv⟩ := startViewChange_not_changing
        { n with msg_log := n.msg_log.add_view_change m } hm
      have hbr : viewChangeBranch n m =
          ⟨(handleViewChange ⟨{ n.state with mode := PbftMode.ViewChanging },
              n.msg_log.add_view_change m⟩ m).node,
            effs ++ (handleViewChange ⟨{ n.state with mode := PbftMode.ViewChanging },
              n.msg_log.add_view_change m⟩ m).effects,
            (handleViewChange ⟨{ n.state with mode := PbftMode.ViewChanging },
              n.msg_log.add_view_change m⟩ m).result⟩ := by
        unfold viewChangeBranch
        dsimp only
        rw [if_pos hm, if_pos hc, hsv]
      refine ⟨?_, fun _ => ⟨fun hcon => absurd hc hcon, fun _ => ⟨?_, ?_⟩⟩, ?_⟩
      · rw [hbr]
        show m ∈ (handleViewChange _ m).node.msg_log.view_changes
        rw [handleViewChange_log]
        exact mem_add_view_change _ _
      · intro e hq
        rw [hbr, handleViewChange_err ⟨{ n.state with mode := PbftMode.ViewChanging },
          n.msg_log.add_view_change m⟩ m e hq]
        exact ⟨rfl, rfl⟩
      · intro hq
        obtain ⟨hview, hmode, _⟩ := handleViewChange_ok_state
          ⟨{ n.state with mode := PbftMode.ViewChanging },
            n.msg_log.add_view_change m⟩ m hq
        rw [hbr]
        exact ⟨hview, hmode⟩
      · intro hv
        cases hq : checkMsgAgainstLog
            ((n.msg_log.add_view_change m).view_changes.map fun x => x.info) m.info
            (2 * n.state.f + 1) with
        | ok => rfl
        | err e =>
          rw [hbr, handleViewChange_err ⟨{ n.state with mode := PbftMode.ViewChanging },
            n.msg_log.add_view_change m⟩ m e hq] at hv
          exact absurd rfl hv
    · have hbr : viewChangeBranch n m =
          ⟨{ n with msg_log := n.msg_log.add_view_change m }, [], .ok⟩ := by
        unfold viewChangeBranch
        dsimp only
        rw [if_pos hm, if_neg hc]
      refine ⟨?_, fun _ => ⟨fun _ => hbr, fun hcon => absurd hcon hc⟩, ?_⟩
      · rw [hbr]
        exact mem_add_view_change _ _
      · intro hv
        rw [hbr] at hv
        exact absurd rfl hv

theorem view_change_always_logged_then_threshold_witness :
    (viewChangeBranch nW5 vc2).node.state.view = 1 ∧
    (viewChangeBranch nW5 vc2).node.state.mode = .Normal :=
  (((view_change_always_logged_then_threshold nW5 vc2).2.1
    (by decide)).2 (by decide)).2 (by decide)

/-- Claim C6: when the view-change handler finds the `2f + 1` quorum it sets
`view = m.view`; the node whose peer id equals `roster[(new view) mod N]`
upgrades to primary — cancelling the block started earlier, ignoring
any current working block and starting a new block — while every other
node downgrades to secondary; in all cases the working block is reset to
none, the phase to `NotStarted`, the mode to `Normal`, and the timeout is
stopped. -/
theorem view_change_quorum_new_primary (n : PbftNode) (m : PbftViewChange)
    (hq : checkMsgAgainstLog (n.msg_log.view_changes.map fun x => x.info) m.info
        (2 * n.state.f + 1) = .ok) :
    (handleViewChange n m).result = .ok ∧
    (handleViewChange n m).node.state.view = m.info.view ∧
    (handleViewChange n m).node.state.working_block = .NoWorkingBlock ∧
    (handleViewChange n m).node.state.phase = .NotStarted ∧
    (handleViewChange n m).node.state.mode = .Normal ∧
    (handleViewChange n m).node.state.timeout.running = false ∧
    (n.state.peer_id = n.state.peers.getD (m.info.view % n.state.peers.length) [] →
      (handleViewChange n m).node.state.role = .Primary ∧
      (handleViewChange n m).effects =
        [Effect.CancelBlock] ++ ignoreWorkingEffects n.state.working_block
          ++ [Effect.InitBlock none]) ∧
    (n.state.peer_id ≠ n.state.peers.getD (m.info.view % n.state.peers.length) [] →
      (handleViewChange n m).node.state.role = .Secondary ∧
      (handleViewChange n m).effects = []) := by
  unfold handleViewChange
  rw [hq]
  by_cases hp : ({ n.state with view := m.info.view } : PbftState).get_own_peer_id =
      ({ n.state with view := m.info.view } : PbftState).get_primary_peer_id
  · have hp2 : n.state.peer_id =
        n.state.peers.getD (m.info.view % n.state.peers.length) [] := hp
    dsimp only
    rw [if_pos hp]
    exact ⟨rfl, rfl, rfl, rfl, rfl, rfl, fun _ => ⟨rfl, rfl⟩, fun h => absurd hp2 h⟩
  · have hp2 : ¬ (n.state.peer_id =
        n.state.peers.getD (m.info.view % n.state.peers.length) []) := hp
    dsimp only
    rw [if_neg hp]
    exact ⟨rfl, rfl, rfl, rfl, rfl, rfl, fun h => absurd h hp2, fun _ => ⟨rfl, rfl⟩⟩

theorem view_change_quorum_new_primary_witness :
    (handleViewChange nW6 vc0).node.state.view = 1 ∧
    (handleViewChange nW6 vc0).node.state.mode = .Normal ∧
    (handleViewChange nW6 vc0).node.state.role = .Primary ∧
    (handleViewChange nW6 vc0).effects =
      [Effect.CancelBlock] ++ ignoreWorkingEffects nW6.state.working_block
        ++ [Effect.InitBlock none] := by
  obtain ⟨h1, h2, h3, h4, h5, h6, h7, h8⟩ :=
    view_change_quorum_new_primary nW6 vc0 (by decide)
  exact ⟨h2, h5, (h7 (by decide)).1, (h7 (by decide)).2⟩

/-- `switch_phase` toward `PrePreparing` succeeds exactly from `NotStarted`. -/
theorem switch_to_pre_preparing (s : PbftState) :
    s.switch_phase .PrePreparing =
      (if s.phase = .NotStarted then
        ({ s with phase := .PrePreparing }, some .PrePreparing)
       else (s, none)) := by
  unfold PbftState.switch_phase
  cases h : s.phase <;> simp [h, PbftPhase.next]

/-- Claim C7: `on_block_new` — a primary first increments its sequence
number and stamps the `BlockNew` message with it while a secondary stamps
`0`; if the block number is more than one past the chain head or the phase
cannot advance from `NotStarted` to `PrePreparing`, the block goes to the
block backlog and the call succeeds with the working block unchanged;
otherwise the message is logged, the working block becomes tentative, the
view-change timeout starts, and a primary additionally broadcasts a
`PrePrepare` for `(view, seq_num, block)`. -/
theorem block_new_stamp_backlog_or_start (n : PbftNode) (env : ServiceEnv)
    (block : Block) (head : Block)
    (henv : env.chain_head = some head) :
    ((onBlockNew n env block).node.state.seq_num =
      (if n.state.is_primary then u64add n.state.seq_num 1 else n.state.seq_num)) ∧
    (block.block_num > u64add head.block_num 1 ∨ n.state.phase ≠ .NotStarted →
      (onBlockNew n env block).result = .ok ∧
      (onBlockNew n env block).node.msg_log.block_backlog =
        n.msg_log.block_backlog ++ [block] ∧
      (onBlockNew n env block).node.msg_log.messages = n.msg_log.messages ∧
      (onBlockNew n env block).node.state.working_block = n.state.working_block ∧
      (onBlockNew n env block).effects = []) ∧
    (¬ (block.block_num > u64add head.block_num 1 ∨ n.state.phase ≠ .NotStarted) →
      (onBlockNew n env block).node.msg_log =
        n.msg_log.add_message ⟨⟨.BlockNew, n.state.view,
          (if n.state.is_primary then u64add n.state.seq_num 1 else 0),
          n.state.peer_id⟩, pbft_block_from_block block⟩ ∧
      (onBlockNew n env block).node.state.working_block =
        .TentativeWorkingBlock block.block_id ∧
      (onBlockNew n env block).node.state.timeout.running = true ∧
      (onBlockNew n env block).node.state.phase = .PrePreparing ∧
      (onBlockNew n env block).result = .ok ∧
      (n.state.is_primary = true →
        (onBlockNew n env block).effects =
          [.Broadcast .PrePrepare ⟨⟨.PrePrepare, n.state.view,
            u64add n.state.seq_num 1, n.state.peer_id⟩,
            pbft_block_from_block block⟩]) ∧
      (n.state.is_primary = false →
        (onBlockNew n env block).effects = [])) := by
  cases hro : n.state.role with
  | Primary =>
    by_cases h1 : block.block_num > u64add head.block_num 1
    · simp [onBlockNew, PbftState.is_primary, hro, henv, h1,
        PbftLog.push_block_backlog, make_msg_info, PbftState.get_own_peer_id]
    · by_cases hns : n.state.phase = .NotStarted
      · simp [onBlockNew, PbftState.is_primary, hro, henv, h1, hns,
          switch_to_pre_preparing, broadcastPbftMessage, PbftState.check_msg_type,
          make_msg_info, PbftState.get_own_peer_id, PbftMessageType.is_multicast]
      · simp [onBlockNew, PbftState.is_primary, hro, henv, h1, hns,
          switch_to_pre_preparing, PbftLog.push_block_backlog, make_msg_info,
          PbftState.get_own_peer_id]
  | Secondary =>
    by_cases h1 : block.block_num > u64add head.block_num 1
    · simp [onBlockNew, PbftState.is_primary, hro, henv, h1,
        PbftLog.push_block_backlog, make_msg_info, PbftState.get_own_peer_id]
    · by_cases hns : n.state.phase = .NotStarted
      · simp [onBlockNew, PbftState.is_primary, hro, henv, h1, hns,
          switch_to_pre_preparing, broadcastPbftMessage, PbftState.check_msg_type,
          make_msg_info, PbftState.get_own_peer_id, PbftMessageType.is_multicast]
      · simp [onBlockNew, PbftState.is_primary, hro, henv, h1, hns,
          switch_to_pre_preparing, PbftLog.push_block_backlog, make_msg_info,
          PbftState.get_own_peer_id]

theorem block_new_stamp_backlog_or_start_witness :
    (onBlockNew ⟨sW7, PbftLog.emptyLog⟩ envW7 blockW7).node.msg_log =
      PbftLog.emptyLog.add_message ⟨⟨.BlockNew, 0, 1, [0]⟩,
        pbft_block_from_block blockW7⟩ ∧
    (onBlockNew ⟨sW7, PbftLog.emptyLog⟩ envW7 blockW7).node.state.working_block =
      .TentativeWorkingBlock blockW7.block_id ∧
    (onBlockNew ⟨sW7, PbftLog.emptyLog⟩ envW7 blockW7).node.state.seq_num = 1 ∧
    (onBlockNew ⟨sW7, PbftLog.emptyLog⟩ envW7 blockW7).effects =
      [.Broadcast .PrePrepare ⟨⟨.PrePrepare, 0, 1, [0]⟩,
        pbft_block_from_block blockW7⟩] := by
  obtain ⟨h1, h2, h3⟩ := block_new_stamp_backlog_or_start ⟨sW7, PbftLog.emptyLog⟩
    envW7 blockW7 headW7 (by decide)
  obtain ⟨g1, g2, g3, g4, g5, g6, g7⟩ := h3 (by decide)
  exact ⟨by simpa using g1, g2, by simpa using h1, by simpa using g6 (by decide)⟩

/-- Claim C8: a Prepare message that proceeds past the not-ready stage is
added to the log and the prepared predicate is tested; when the predicate
succeeds and the phase is not already `Checking`, the phase advances to
`Checking` and the service is asked to check the block of the message — and these
two effects happen only under those conditions. -/
theorem prepare_first_quorum_checks_block (n : PbftNode) (env : ServiceEnv)
    (msg : PeerMessage) (m : PbftMessage)
    (hty : m.info.msg_type = .Prepare)
    (hnr : handleMulticast n.state m = .Proceed) :
    ((prepareBranch n env msg m (handleMulticast n.state m)).node.msg_log.messages =
      (n.msg_log.add_message m).messages) ∧
    (∀ e, (n.msg_log.add_message m).prepared m n.state.f = .err e →
      prepareBranch n env msg m (handleMulticast n.state m) =
        ⟨⟨n.state, n.msg_log.add_message m⟩, [], .err e⟩) ∧
    ((n.msg_log.add_message m).prepared m n.state.f = .ok →
      (n.state.phase ≠ .Checking →
        (prepareBranch n env msg m (handleMulticast n.state m)).node.state.phase =
          .Checking ∧
        (prepareBranch n env msg m (handleMulticast n.state m)).effects =
          [.CheckBlocks [m.block.block_id]]) ∧
      (n.state.phase = .Checking →
        prepareBranch n env msg m (handleMulticast n.state m) =
          ⟨⟨n.state, n.msg_log.add_message m⟩, [], .ok⟩)) := by
  rw [hnr]
  have hexp : n.state.check_msg_type = .Prepare :=
    (handleMulticast_proceed_type hnr).symm.trans hty
  cases hpre : (n.msg_log.add_message m).prepared m n.state.f with
  | err e =>
    simp [prepareBranch, handleNotReady, hpre]
  | ok =>
    rcases check_msg_type_eq_prepare hexp with hph | hph
    · by_cases hchk : n.state.phase = .Checking
      · rw [hph] at hchk
        exact absurd hchk (by decide)
      · cases hcb : env.check_blocks_ok with
        | true =>
          simp [prepareBranch, handleNotReady, hpre, hcb,
            PbftState.switch_phase, PbftPhase.next, hph]
        | false =>
          simp [prepareBranch, handleNotReady, hpre, hcb,
            PbftState.switch_phase, PbftPhase.next, hph]
    · simp [prepareBranch, handleNotReady, hpre, hph]

theorem prepare_first_quorum_checks_block_witness :
    (prepareBranch ⟨sW8, logW8⟩ env0 msgW8 mW8
        (handleMulticast sW8 mW8)).node.state.phase = .Checking ∧
    (prepareBranch ⟨sW8, logW8⟩ env0 msgW8 mW8
        (handleMulticast sW8 mW8)).effects = [.CheckBlocks [mW8.block.block_id]] := by
  obtain ⟨h1, h2, h3⟩ := prepare_first_quorum_checks_block ⟨sW8, logW8⟩ env0 msgW8 mW8
    (by decide) (by decide)
  exact (h3 (by decide)).1 (by decide)

/-- Claim C9: an incoming Checkpoint already covered by the latest stable
checkpoint is dropped with success and nothing is logged; otherwise it is
logged and processed, and when the mode of the node is (or, for a secondary,
becomes) `Checkpointing` with a `2f + 1` distinct-signer quorum of matching
Checkpoint messages, the log is garbage-collected at `(m.seq_num, m.view)`
and the mode is restored to `pre_checkpoint_mode`. -/
theorem checkpoint_drop_log_process (n : PbftNode) (m : PbftMessage) :
    (n.msg_log.get_latest_checkpoint ≥ m.info.seq_num →
      checkpointBranch n m = ⟨n, [], .ok⟩) ∧
    (¬ n.msg_log.get_latest_checkpoint ≥ m.info.seq_num →
      checkpointBranch n m =
        handleCheckpoint { n with msg_log := n.msg_log.add_message m } m ∧
      ((n.state.mode = .Checkpointing ∨ n.state.is_primary = false) →
        checkMsgAgainstLog ((n.msg_log.add_message m).messages.map fun x => x.info)
            m.info (2 * n.state.f + 1) = .ok →
        (checkpointBranch n m).node.msg_log =
          (n.msg_log.add_message m).garbage_collect m.info.seq_num m.info.view ∧
        (checkpointBranch n m).result = .ok ∧
        (checkpointBranch n m).node.state.mode =
          (if n.state.is_primary = false ∧ n.state.mode ≠ .Checkpointing
           then n.state.mode else n.state.pre_checkpoint_mode))) := by
  constructor
  · intro h
    unfold checkpointBranch
    rw [if_pos h]
  · intro h
    refine ⟨by unfold checkpointBranch; rw [if_neg h], ?_⟩
    intro hmode hq
    by_cases hsw : n.state.is_primary = false ∧ n.state.mode ≠ .Checkpointing
    · simp [checkpointBranch, h, handleCheckpoint, hsw, hq]
    · have hckpt : n.state.mode = .Checkpointing := by
        rcases hmode with h1 | h1
        · exact h1
        · by_contra hcon
          exact hsw ⟨h1, hcon⟩
      simp [checkpointBranch, h, handleCheckpoint, hsw, hckpt, hq]

theorem checkpoint_drop_log_process_witness :
    (checkpointBranch nW9 mW9).node.msg_log =
      (nW9.msg_log.add_message mW9).garbage_collect 10 0 ∧
    (checkpointBranch nW9 mW9).result = .ok ∧
    (checkpointBranch nW9 mW9).node.state.mode = .Normal := by
  obtain ⟨h1, h2⟩ := checkpoint_drop_log_process nW9 mW9
  obtain ⟨g1, g2⟩ := h2 (by decide)
  obtain ⟨k1, k2, k3⟩ := g2 (Or.inr (by decide)) (by decide)
  refine ⟨k1, k2, ?_⟩
  rw [k3]
  decide
